import Mathlib

/-!
# Verification of the Archivist bot command handler (`src/main.py`)

A shallow embedding of the `!save` / `!load` command handler of `main.py`.

The program is an event callback `on_message` over a chat-gateway client.
We model exactly the pure decision logic of that callback:

* the storage file `data.json` is modelled as a `FileState`
  (absent / unparseable JSON / a parsed JSON value), since the handler only
  distinguishes `FileNotFoundError`, `json.JSONDecodeError`, and the parsed
  value, and `json.dump` followed by `json.load` round-trips the values
  this program stores;
* `str(message.author)` and the timestamp string computed in lines 45-48
  of the source are inputs to the model (they come from the gateway);
* `zoneinfo.ZoneInfo` resolution is modelled by a parameter
  `tzOk : String → Bool` (resolution succeeds or raises
  `ZoneInfoNotFoundError`);
* the pipeline `datetime.fromisoformat` / `astimezone` / `strftime`
  (lines 120-129) is modelled by a parameter
  `fmtTs : Option String → String → Option String`: given the selected
  timezone argument (`none` = server-local) and the stored ISO string it
  returns the formatted local time, or `none` when the `try` block raises
  `ValueError`.  A `TypeError` (a truthy non-string timestamp reaching
  `fromisoformat`, or an unhashable `author` value used as a dict key) is
  not caught by the source and aborts the whole render; we model this with
  `Except Unit`.
-/

/-- A JSON value as produced by `json.load` (numbers restricted to integers,
which is all this development needs). -/
inductive Json where
  | null
  | bool (b : Bool)
  | num (n : Int)
  | str (s : String)
  | arr (xs : List Json)
  | obj (kvs : List (String × Json))
deriving Repr

/-- Python truthiness (`if ts:` at line 117, `or` at line 99) of a JSON
value: `None`, `False`, `0`, `""`, `[]`, `{}` are falsy. -/
def Json.truthy : Json → Bool
  | .null => false
  | .bool b => b
  | .num n => n != 0
  | .str s => s != ""
  | .arr xs => !xs.isEmpty
  | .obj kvs => !kvs.isEmpty

/-- Whether a parsed-JSON value is hashable in Python (usable as a dict key
at line 100): lists and dicts raise `TypeError`. -/
def Json.hashable : Json → Bool
  | .arr _ => false
  | .obj _ => false
  | _ => true

/-- Numeric view used by Python `==` on dict keys: `True == 1`,
`False == 0`. -/
def Json.keyNum : Json → Option Int
  | .bool b => some (if b then 1 else 0)
  | .num n => some n
  | _ => none

/-- Python `==` on the hashable JSON scalars, as used by dict key lookup
(`setdefault` at lines 100, 103). -/
def pyKeyEq (a b : Json) : Bool :=
  match a, b with
  | .null, .null => true
  | .str x, .str y => x == y
  | _, _ =>
    match a.keyNum, b.keyNum with
    | some x, some y => x == y
    | _, _ => false

/-- Python `'k' in entry` (line 98) for a dict. -/
def Json.hasKey (j : Json) (k : String) : Bool :=
  match j with
  | .obj kvs => kvs.any (fun kv => kv.1 == k)
  | _ => false

/-- Python `entry.get(k)` (lines 99, 114, 132): the value at `k`, or `None`
when absent or when the value is not a dict. -/
def Json.getD (j : Json) (k : String) : Json :=
  match j with
  | .obj kvs =>
    match kvs.find? (fun kv => kv.1 == k) with
    | some kv => kv.2
    | none => .null
  | _ => .null

/-- Whether the value is a Python dict (`isinstance(entry, dict)`). -/
def Json.isObj : Json → Bool
  | .obj _ => true
  | _ => false

/-- Lower-case hex digit. -/
def hexDigit (n : Nat) : Char :=
  if n < 10 then Char.ofNat (48 + n) else Char.ofNat (87 + n)

/-- Four lower-case hex digits, as in Python's `\uXXXX` escapes. -/
def hex4 (n : Nat) : String :=
  String.mk [hexDigit (n / 4096 % 16), hexDigit (n / 256 % 16),
             hexDigit (n / 16 % 16), hexDigit (n % 16)]

/-- Escape of one character inside a JSON string literal, per
`json.dumps(..., ensure_ascii=False)`: only `"`, `\`, and control
characters are escaped; everything else (non-ASCII included) is kept. -/
def escapeChar (c : Char) : String :=
  if c = '"' then "\\\""
  else if c = '\\' then "\\\\"
  else if c = '\n' then "\\n"
  else if c = '\r' then "\\r"
  else if c = '\t' then "\\t"
  else if c.toNat = 8 then "\\b"
  else if c.toNat = 12 then "\\f"
  else if c.toNat < 32 then "\\u" ++ hex4 c.toNat
  else String.singleton c

/-- Body of a JSON string literal under
`json.dumps(..., ensure_ascii=False)`. -/
def escapeStr (s : String) : String :=
  String.join (s.data.map escapeChar)

mutual
/-- `json.dumps(v, ensure_ascii=False)` (line 134): default separators
`", "` and `": "`, no indentation. -/
def jsonDumps : Json → String
  | .null => "null"
  | .bool true => "true"
  | .bool false => "false"
  | .num n => toString n
  | .str s => "\"" ++ escapeStr s ++ "\""
  | .arr xs => "[" ++ dumpsList xs ++ "]"
  | .obj kvs => "\x7b" ++ dumpsObj kvs ++ "\x7d"

/-- Comma-separated dump of an array's elements. -/
def dumpsList : List Json → String
  | [] => ""
  | [x] => jsonDumps x
  | x :: y :: xs => jsonDumps x ++ ", " ++ dumpsList (y :: xs)

/-- Comma-separated dump of an object's key/value pairs. -/
def dumpsObj : List (String × Json) → String
  | [] => ""
  | [kv] => "\"" ++ escapeStr kv.1 ++ "\": " ++ jsonDumps kv.2
  | kv :: kv2 :: kvs =>
    "\"" ++ escapeStr kv.1 ++ "\": " ++ jsonDumps kv.2 ++ ", " ++ dumpsObj (kv2 :: kvs)
end

/-- Characters stripped by Python `str.strip()` (the `str.isspace` set). -/
def isPySpace (c : Char) : Bool :=
  c = ' ' || c = '\t' || c = '\n' || c = '\r' ||
  c.toNat = 11 || c.toNat = 12 ||
  (28 ≤ c.toNat && c.toNat ≤ 31) || c.toNat = 133 || c.toNat = 160 ||
  c.toNat = 0x1680 || (0x2000 ≤ c.toNat && c.toNat ≤ 0x200a) ||
  c.toNat = 0x2028 || c.toNat = 0x2029 || c.toNat = 0x202f ||
  c.toNat = 0x205f || c.toNat = 0x3000

/-- Python `s.strip()`. -/
def pyStrip (s : String) : String :=
  String.mk (((s.data.dropWhile isPySpace).reverse.dropWhile isPySpace).reverse)

/-- Python `s[n:]` (slicing is by code point, as is Lean's `List Char`). -/
def pyDrop (s : String) (n : Nat) : String :=
  String.mk (s.data.drop n)

/-- Python `s.startswith(p)`. -/
def pyStartsWith (s p : String) : Bool :=
  p.data.isPrefixOf s.data

/-- Python `sep.join(parts)`. -/
def pyJoin (sep : String) : List String → String
  | [] => ""
  | [x] => x
  | x :: y :: xs => x ++ sep ++ pyJoin sep (y :: xs)

/-- Python `text[i:i+n]`. -/
def pySlice (s : String) (i n : Nat) : String :=
  String.mk ((s.data.drop i).take n)

/-- The grouped view: a Python dict author-key → list of entries, in
insertion order (`grouped` at line 96). -/
abbrev Groups := List (Json × List Json)

/-- `grouped.setdefault(key, []).append(e)` (lines 100, 103): append to the
existing group whose key is `==`-equal to `key` (the dict keeps its first
key object), or add a new group at the end. -/
def addToGroup : Groups → Json → Json → Groups
  | [], k, e => [(k, [e])]
  | (k', es) :: rest, k, e =>
    if pyKeyEq k' k then (k', es ++ [e]) :: rest
    else (k', es) :: addToGroup rest k e

/-- The legacy wrapper built at lines 103-107. -/
def wrapLegacy (e : Json) : Json :=
  .obj [("author", .str "unknown"), ("timestamp", .null), ("payload", e)]

/-- One iteration of the grouping loop (lines 97-107).  `.error ()` is the
uncaught `TypeError` raised by `setdefault` when the entry's truthy
`author` value is unhashable. -/
def stepGroup (g : Groups) (entry : Json) : Except Unit Groups :=
  if entry.isObj && entry.hasKey "author" then
    let key := if (entry.getD "author").truthy then entry.getD "author" else .str "unknown"
    if key.hashable then .ok (addToGroup g key entry) else .error ()
  else
    .ok (addToGroup g (.str "unknown") (wrapLegacy entry))

/-- The grouping loop (lines 96-107) over the normalized data list. -/
def groupFold (g : Groups) : List Json → Except Unit Groups
  | [] => .ok g
  | e :: es =>
    match stepGroup g e with
    | .error u => .error u
    | .ok g' => groupFold g' es

/-- Python `str()` of a group key as interpolated at line 112.  Keys are
always hashable scalars (`stepGroup` checks `hashable` first), so the
list/dict cases are unreachable. -/
def pyStr : Json → String
  | .null => "None"
  | .bool true => "True"
  | .bool false => "False"
  | .num n => toString n
  | .str s => s
  | .arr _ => ""
  | .obj _ => ""

/-- Lines 116-131: compute `human_ts`.  `none` renders as Python `None`.
A truthy non-string timestamp reaches `datetime.fromisoformat` and raises
an uncaught `TypeError` (`.error ()`); for a truthy string, `fmt`
returning `none` is the caught `ValueError`, falling back to the raw
string. -/
def humanTs (fmt : String → Option String) (ts : Json) : Except Unit (Option String) :=
  if ts.truthy then
    match ts with
    | .str s =>
      match fmt s with
      | some h => .ok (some h)
      | none => .ok (some s)
    | _ => .error ()
  else
    .ok none

/-- The `f'       Timestamp: {human_ts}'` line (line 135). -/
def tsLine (h : Option String) : String :=
  match h with
  | none => "       Timestamp: None"
  | some s => "       Timestamp: " ++ s

/-- `ts = ent.get('timestamp') if isinstance(ent, dict) else None`
(line 114). -/
def entTs (ent : Json) : Json :=
  if ent.isObj then ent.getD "timestamp" else .null

/-- The `payload` expression of line 132: the entry's `payload` value when
present, otherwise the entry itself (both arms of the inner conditional
are `ent`). -/
def payloadOf (ent : Json) : Json :=
  if ent.isObj then (if ent.hasKey "payload" then ent.getD "payload" else ent) else ent

/-- The two lines appended for one entry (lines 113-135, one iteration):
the payload line then the timestamp line. -/
def renderEntry (fmt : String → Option String) (idx : Nat) (ent : Json) :
    Except Unit (List String) :=
  match humanTs fmt (entTs ent) with
  | .error u => .error u
  | .ok h =>
    .ok ["  " ++ toString idx ++ ") " ++ jsonDumps (payloadOf ent), tsLine h]

/-- The inner `for idx, ent in enumerate(entries, start=1)` loop
(lines 113-135). -/
def renderEntries (fmt : String → Option String) :
    List (Nat × Json) → Except Unit (List String)
  | [] => .ok []
  | (i, e) :: rest =>
    match renderEntry fmt i e with
    | .error u => .error u
    | .ok ls =>
      match renderEntries fmt rest with
      | .error u => .error u
      | .ok rs => .ok (ls ++ rs)

/-- The `Author:` header line of a group (line 112). -/
def authorLine (key : Json) (count : Nat) : String :=
  "Author: " ++ pyStr key ++ " (" ++ toString count ++ " message(s))"

/-- The `parts` contributed by one author group (lines 112-136): header,
entry lines, then the blank separator appended at line 136. -/
def renderGroup (fmt : String → Option String) (key : Json) (es : List Json) :
    Except Unit (List String) :=
  match renderEntries fmt (List.enumFrom 1 es) with
  | .error u => .error u
  | .ok ls => .ok (authorLine key es.length :: (ls ++ [""]))

/-- The outer `for author, entries in grouped.items()` loop
(lines 111-136). -/
def renderGroups (fmt : String → Option String) : Groups → Except Unit (List String)
  | [] => .ok []
  | (k, es) :: rest =>
    match renderGroup fmt k es with
    | .error u => .error u
    | .ok ls =>
      match renderGroups fmt rest with
      | .error u => .error u
      | .ok rs => .ok (ls ++ rs)

/-- Normalization of the parsed file content to a list (lines 92-93 for
`load`, lines 60-63 for `save`). -/
def normalizeData : Json → List Json
  | .arr xs => xs
  | j => [j]

/-- The whole `parts` list built by lines 96-136 from the normalized data,
or the uncaught exception aborting the handler. -/
def renderParts (fmt : String → Option String) (data : List Json) :
    Except Unit (List String) :=
  match groupFold [] data with
  | .error u => .error u
  | .ok g => renderGroups fmt g

/-- `friendly_text = '\n'.join(parts)` (line 138). -/
def friendlyText (parts : List String) : String :=
  pyJoin "\n" parts

/-- Number of chunks of `_send_paginated` (line 143):
`range(0, len(text), 1900)` has `ceil(len/1900)` elements. -/
def numChunks (text : String) : Nat :=
  (text.length + 1899) / 1900

/-- `_send_paginated(channel, header, text, lang)` (lines 140-155): the
ordered list of message bodies sent.  The chunk at loop offset `i` is
`text[i:i+1900]`; only the chunk at offset `0` gets the header (and the
code fence when a language is supplied — the only call site passes no
language). -/
def sendPaginated (header : String) (lang : Option String) (text : String) :
    List String :=
  (List.range (numChunks text)).map fun i =>
    let chunk := pySlice text (1900 * i) 1900
    match lang with
    | some l =>
      if i = 0 then header ++ "\n```" ++ l ++ "\n" ++ chunk ++ "\n```"
      else "```" ++ l ++ "\n" ++ chunk ++ "\n```"
    | none =>
      if i = 0 then header ++ "\n" ++ chunk else chunk

/-- The state of `data.json`: absent (`FileNotFoundError` on open),
unparseable (`json.JSONDecodeError`), or a parsed JSON value. -/
inductive FileState where
  | absent
  | corrupt
  | stored (j : Json)
deriving Repr

/-- The entry list the `!save` branch reads before appending
(lines 57-68): absent and unparseable files are both recovered to the
empty list, a stored value is normalized to a list (lines 60-63). -/
def initData : FileState → List Json
  | .absent => []
  | .corrupt => []
  | .stored j => normalizeData j

/-- Reply of line 41. -/
def usageReply : String :=
  "Please provide text to save. Usage: `!save your text here`"

/-- Reply of line 74. -/
def savedReply : String :=
  "Saved to `data.json`."

/-- Reply of line 84. -/
def unknownTzReply (tz : String) : String :=
  "Unknown timezone: `" ++ tz ++ "`. Use an IANA timezone name like `Europe/Berlin`."

/-- Reply of line 159. -/
def noDataReply : String :=
  "No data found. `data.json` does not exist."

/-- Reply of line 161. -/
def corruptReply : String :=
  "Error reading `data.json`. The file may be corrupted."

/-- The `!load` block (lines 76-161): replies sent and resulting file
state.  `fmtTs` takes the selected timezone argument (`some tzArg` when
one was resolved, `none` for server-local `astimezone()`), `tzOk` models
`ZoneInfo` resolution.  An uncaught `TypeError` during grouping/rendering
aborts the handler before any send. -/
def loadBranch (fmtTs : Option String → String → Option String)
    (tzOk : String → Bool) (content : String) (file : FileState) :
    List String × FileState :=
  if pyStartsWith content "!load" then
    let tzArg := pyStrip (pyDrop content 5)
    if tzArg ≠ "" && !tzOk tzArg then
      ([unknownTzReply tzArg], file)
    else
      let tzSel : Option String := if tzArg = "" then none else some tzArg
      match file with
      | .absent => ([noDataReply], file)
      | .corrupt => ([corruptReply], file)
      | .stored j =>
        match renderParts (fmtTs tzSel) (normalizeData j) with
        | .error _ => ([], file)
        | .ok parts =>
          (sendPaginated "Saved messages:" none (friendlyText parts), file)
  else ([], file)

/-- The saved entry built at lines 50-54.  `author` is `str(message.author)`
and `ts` the timestamp string computed at lines 45-48 (both inputs from
the gateway). -/
def savedEntry (author ts payload : String) : Json :=
  .obj [("author", .str author), ("timestamp", .str ts), ("payload", .str payload)]

/-- The `on_message` handler (lines 30-161) as a function from the message
data and the file state to the ordered replies sent and the new file
state.  The `!save` block falls through to the `!load` check (no `elif` in
the source) except on the empty-payload early `return` of line 42. -/
def onMessage (fmtTs : Option String → String → Option String)
    (tzOk : String → Bool) (author ts content : String) (file : FileState) :
    List String × FileState :=
  if pyStartsWith content "!save" then
    let contentStr := pyStrip (pyDrop content 6)
    if contentStr = "" then ([usageReply], file)
    else
      let file' := FileState.stored (.arr (initData file ++ [savedEntry author ts contentStr]))
      let rest := loadBranch fmtTs tzOk content file'
      (savedReply :: rest.1, rest.2)
  else loadBranch fmtTs tzOk content file

/-- A timestamp formatter that fails (raises `ValueError`) on every input;
a legitimate instance of the `fromisoformat` pipeline for inputs that are
not ISO-8601 (in particular the empty string). -/
def fmtNone : Option String → String → Option String := fun _ _ => none

/-- A timezone resolver that finds no zone. -/
def tzNone : String → Bool := fun _ => false

/-- The raw chunk sequence of the pagination loop (line 143-144): the
slices `text[i:i+1900]` for `i in range(0, len(text), 1900)`, without the
header decoration. -/
def sliceChunks (text : String) : List String :=
  (List.range (numChunks text)).map fun i => pySlice text (1900 * i) 1900

/-- Concatenation of a list of strings (used to state that the chunks
reassemble to the original text). -/
def concatStrs : List String → String
  | [] => ""
  | x :: xs => x ++ concatStrs xs

/-- Whether the value is a JSON string. -/
def Json.isStr : Json → Bool
  | .str _ => true
  | _ => false

/-- Rendering an entry raises no exception exactly when its timestamp is
a string or falsy (a truthy non-string reaches `fromisoformat` and raises
an uncaught `TypeError`). -/
def entRenderOK (ent : Json) : Bool :=
  (entTs ent).isStr || !(entTs ent).truthy

/-- A stored entry that `!load` can group and render without an uncaught
exception: if it is an object with an `author` key, its truthy `author`
value must be hashable and its timestamp a string or falsy; all other
entries are wrapped as legacy and always render. -/
def entryWF (e : Json) : Bool :=
  if e.isObj && e.hasKey "author" then
    (!(e.getD "author").truthy || (e.getD "author").hashable) && entRenderOK e
  else true

/-- The dict key under which a freshly saved entry is grouped:
`entry.get('author') or 'unknown'` (line 99) for `author` a string. -/
def savedKey (a : String) : Json :=
  if (Json.str a).truthy then .str a else .str "unknown"

/-- The entries produced by a list of `(author, ts, text)` save commands. -/
def savedList (saves : List (String × String × String)) : List Json :=
  saves.map fun s => savedEntry s.1 s.2.1 (pyStrip s.2.2)

/-- Run a sequence of `!save` messages through the handler, tracking only
the file state. -/
def runSaves (fmtTs : Option String → String → Option String)
    (tzOk : String → Bool) (saves : List (String × String × String))
    (file : FileState) : FileState :=
  saves.foldl (fun st s => (onMessage fmtTs tzOk s.1 s.2.1 ("!save " ++ s.2.2) st).2) file

/-- Total number of entries across all author groups. -/
def totalEntries (g : Groups) : Nat :=
  (g.map (fun p => p.2.length)).sum

/-- Dict lookup of a group by key (`grouped[key]`, via `==` on keys). -/
def findGroup (g : Groups) (k : Json) : Option (Json × List Json) :=
  g.find? (fun p => pyKeyEq p.1 k)

/-- A message starting with `!save` does not start with `!load`. -/
theorem not_load_of_save (c : String) (h : pyStartsWith c "!save" = true) :
    pyStartsWith c "!load" = false := by
  rw [pyStartsWith, List.isPrefixOf_iff_prefix] at h
  obtain ⟨t, ht⟩ := h
  rw [pyStartsWith, ← ht]
  rfl

/-- A message starting with `!load` does not start with `!save`. -/
theorem not_save_of_load (c : String) (h : pyStartsWith c "!load" = true) :
    pyStartsWith c "!save" = false := by
  rw [pyStartsWith, List.isPrefixOf_iff_prefix] at h
  obtain ⟨t, ht⟩ := h
  rw [pyStartsWith, ← ht]
  rfl

/-- The `!load` block never changes the file state. -/
theorem loadBranch_snd (fmtTs : Option String → String → Option String)
    (tzOk : String → Bool) (content : String) (file : FileState) :
    (loadBranch fmtTs tzOk content file).2 = file := by
  cases file <;> simp only [loadBranch] <;>
    repeat first | rfl | split

/-- C5: an inbound `!save` whose remainder after the prefix is empty or
whitespace-only replies with the usage hint and leaves the file state
untouched (the handler returns at line 42 before any file operation). -/
theorem save_whitespace_usage_no_mutation
    (fmtTs : Option String → String → Option String) (tzOk : String → Bool)
    (author ts content : String) (file : FileState)
    (hs : pyStartsWith content "!save" = true)
    (he : pyStrip (pyDrop content 6) = "") :
    onMessage fmtTs tzOk author ts content file = ([usageReply], file) := by
  simp [onMessage, hs, he]

/-- Witness for C5 at `content = "!save   "`. -/
theorem save_whitespace_usage_no_mutation_witness :
    pyStartsWith "!save   " "!save" = true ∧ pyStrip (pyDrop "!save   " 6) = "" ∧
    onMessage fmtNone tzNone "alice" "2024-01-01T00:00:00" "!save   " FileState.absent
      = ([usageReply], FileState.absent) :=
  ⟨rfl, rfl,
   save_whitespace_usage_no_mutation fmtNone tzNone "alice" "2024-01-01T00:00:00"
     "!save   " FileState.absent rfl rfl⟩

/-- C6: a `!load` whose non-empty trimmed argument does not resolve as a
timezone replies with the unknown-timezone message naming the argument,
for every file state, which it leaves untouched — the handler returns at
line 85 before opening the storage file, so no stored entry is
displayed. -/
theorem load_unknown_timezone_aborts
    (fmtTs : Option String → String → Option String) (tzOk : String → Bool)
    (author ts content : String) (file : FileState)
    (hl : pyStartsWith content "!load" = true)
    (harg : pyStrip (pyDrop content 5) ≠ "")
    (hbad : tzOk (pyStrip (pyDrop content 5)) = false) :
    onMessage fmtTs tzOk author ts content file
      = ([unknownTzReply (pyStrip (pyDrop content 5))], file) := by
  simp [onMessage, not_save_of_load content hl, loadBranch, hl, harg, hbad]

/-- Witness for C6 at `content = "!load badzone"` over an unknown file
state. -/
theorem load_unknown_timezone_aborts_witness :
    pyStartsWith "!load badzone" "!load" = true ∧
    pyStrip (pyDrop "!load badzone" 5) ≠ "" ∧
    tzNone (pyStrip (pyDrop "!load badzone" 5)) = false ∧
    onMessage fmtNone tzNone "alice" "t" "!load badzone" FileState.corrupt
      = ([unknownTzReply (pyStrip (pyDrop "!load badzone" 5))], FileState.corrupt) :=
  ⟨rfl, by decide, rfl,
   load_unknown_timezone_aborts fmtNone tzNone "alice" "t" "!load badzone"
     FileState.corrupt rfl (by decide) rfl⟩

/-- C7: read-recovery is asymmetric.  On an absent or unparseable file, a
`!save` with non-empty payload succeeds and rewrites the file to exactly
the one new entry (lines 64-68 reset `data` to `[]`), while `!load`
replies with the corruption message on an unparseable file and the
no-data message on an absent file, sending nothing else. -/
theorem save_load_recovery_asymmetric
    (fmtTs : Option String → String → Option String) (tzOk : String → Bool)
    (author ts content : String) (file : FileState)
    (hfile : file = FileState.absent ∨ file = FileState.corrupt)
    (hs : pyStartsWith content "!save" = true)
    (hne : pyStrip (pyDrop content 6) ≠ "") :
    onMessage fmtTs tzOk author ts content file
      = ([savedReply],
         FileState.stored (.arr [savedEntry author ts (pyStrip (pyDrop content 6))]))
    ∧ (∀ a t, onMessage fmtTs tzOk a t "!load" FileState.corrupt
        = ([corruptReply], FileState.corrupt))
    ∧ (∀ a t, onMessage fmtTs tzOk a t "!load" FileState.absent
        = ([noDataReply], FileState.absent)) := by
  refine ⟨?_, fun a t => rfl, fun a t => rfl⟩
  rcases hfile with h | h <;> subst h <;>
    simp [onMessage, hs, hne, loadBranch, not_load_of_save content hs,
          initData]

/-- Witness for C7 at `content = "!save hi"` on a corrupt file. -/
theorem save_load_recovery_asymmetric_witness :
    (FileState.corrupt = FileState.absent ∨ FileState.corrupt = FileState.corrupt) ∧
    pyStartsWith "!save hi" "!save" = true ∧
    pyStrip (pyDrop "!save hi" 6) ≠ "" ∧
    (onMessage fmtNone tzNone "alice" "t0" "!save hi" FileState.corrupt
      = ([savedReply],
         FileState.stored (.arr [savedEntry "alice" "t0" (pyStrip (pyDrop "!save hi" 6))]))
    ∧ (∀ a t, onMessage fmtNone tzNone a t "!load" FileState.corrupt
        = ([corruptReply], FileState.corrupt))
    ∧ (∀ a t, onMessage fmtNone tzNone a t "!load" FileState.absent
        = ([noDataReply], FileState.absent))) :=
  ⟨Or.inr rfl, rfl, by decide,
   save_load_recovery_asymmetric fmtNone tzNone "alice" "t0" "!save hi"
     FileState.corrupt (Or.inr rfl) rfl (by decide)⟩

/-- C9: the `!load` handler never writes the storage file in any branch:
its resulting file state is the input file state, and running it a second
time on the resulting state reproduces the same reply and state. -/
theorem load_never_writes_idempotent
    (fmtTs : Option String → String → Option String) (tzOk : String → Bool)
    (author ts content : String) (file : FileState)
    (hl : pyStartsWith content "!load" = true) :
    (onMessage fmtTs tzOk author ts content file).2 = file
    ∧ onMessage fmtTs tzOk author ts content
        ((onMessage fmtTs tzOk author ts content file).2)
      = onMessage fmtTs tzOk author ts content file := by
  have hmsg : onMessage fmtTs tzOk author ts content file
      = loadBranch fmtTs tzOk content file := by
    simp [onMessage, not_save_of_load content hl]
  have hsnd : (onMessage fmtTs tzOk author ts content file).2 = file := by
    rw [hmsg, loadBranch_snd]
  exact ⟨hsnd, by rw [hsnd]⟩

/-- Witness for C9 at `content = "!load"` on a corrupt file. -/
theorem load_never_writes_idempotent_witness :
    pyStartsWith "!load" "!load" = true ∧
    ((onMessage fmtNone tzNone "a" "t" "!load" FileState.corrupt).2 = FileState.corrupt
    ∧ onMessage fmtNone tzNone "a" "t" "!load"
        ((onMessage fmtNone tzNone "a" "t" "!load" FileState.corrupt).2)
      = onMessage fmtNone tzNone "a" "t" "!load" FileState.corrupt) :=
  ⟨rfl, load_never_writes_idempotent fmtNone tzNone "a" "t" "!load" FileState.corrupt rfl⟩

/-- C10: on a stored empty JSON array the rendered text is empty and
`!load` sends no message at all — pagination over an empty text emits
zero chunks (for every header and language), so not even the
`Saved messages:` header goes out. -/
theorem load_empty_array_sends_nothing
    (fmtTs : Option String → String → Option String) (tzOk : String → Bool)
    (author ts : String) :
    onMessage fmtTs tzOk author ts "!load" (FileState.stored (.arr []))
      = ([], FileState.stored (.arr []))
    ∧ (∀ header : String, ∀ lang : Option String, sendPaginated header lang "" = [])
    ∧ friendlyText [] = "" :=
  ⟨rfl, fun _ _ => rfl, rfl⟩

/-- Joining the `1900`-wide slices at offsets `0, 1900, …` recovers any
list of length at most `1900 * k`. -/
theorem flatten_slices (k : Nat) :
    ∀ cs : List Char, cs.length ≤ 1900 * k →
      ((List.range k).map (fun i => (cs.drop (1900 * i)).take 1900)).flatten = cs := by
  induction k with
  | zero =>
    intro cs h
    have : cs = [] := List.eq_nil_of_length_eq_zero (by omega)
    simp [this]
  | succ k ih =>
    intro cs h
    rw [List.range_succ_eq_map, List.map_cons, List.map_map]
    have hcomp :
        ((fun i => (cs.drop (1900 * i)).take 1900) ∘ Nat.succ)
          = fun i => ((cs.drop 1900).drop (1900 * i)).take 1900 := by
      funext i
      simp only [Function.comp, List.drop_drop]
      have h2 : 1900 + 1900 * i = 1900 * Nat.succ i := by omega
      rw [h2]
    rw [hcomp]
    have hlen : (cs.drop 1900).length ≤ 1900 * k := by
      rw [List.length_drop]
      omega
    simp only [List.flatten_cons, ih (cs.drop 1900) hlen]
    exact List.take_append_drop 1900 cs

/-- `concatStrs` over `String.mk`-built pieces is `String.mk` of the
flattened character lists. -/
theorem concatStrs_map_mk (ls : List (List Char)) :
    concatStrs (ls.map String.mk) = String.mk ls.flatten := by
  induction ls with
  | nil => rfl
  | cons a ls ih => simp only [List.map_cons, concatStrs, ih, List.flatten_cons]; rfl

/-- C4: for non-empty text, pagination with `max_chunk = 1900` emits
exactly `⌈len/1900⌉` ordered messages; each message carries the plain
slice `text[i:i+1900]` of at most 1900 characters; only the first message
is prefixed with the header and a newline; the slices concatenate back to
the original text; and a text of length 5000 yields exactly 3 messages. -/
theorem paginate_chunks_spec (header text : String) (hL : text ≠ "") :
    (sendPaginated header none text).length = (text.length + 1899) / 1900
    ∧ (sliceChunks text).length = (text.length + 1899) / 1900
    ∧ (∀ c ∈ sliceChunks text, c.length ≤ 1900)
    ∧ concatStrs (sliceChunks text) = text
    ∧ (∃ rest, sliceChunks text = pySlice text 0 1900 :: rest
        ∧ sendPaginated header none text
            = (header ++ "\n" ++ pySlice text 0 1900) :: rest)
    ∧ (text.length = 5000 → (sendPaginated header none text).length = 3) := by
  have hlen1 : 1 ≤ text.length := by
    cases text with
    | mk data =>
      cases data with
      | nil => exact absurd rfl hL
      | cons c cs => simp [String.length]
  have hcount : (sendPaginated header none text).length = (text.length + 1899) / 1900 := by
    simp [sendPaginated, numChunks]
  have hcount' : (sliceChunks text).length = (text.length + 1899) / 1900 := by
    simp [sliceChunks, numChunks]
  refine ⟨hcount, hcount', ?_, ?_, ?_, ?_⟩
  · intro c hc
    simp only [sliceChunks, List.mem_map] at hc
    obtain ⟨i, _, rfl⟩ := hc
    exact List.length_take_le 1900 _
  · have hmk : sliceChunks text
        = ((List.range (numChunks text)).map
            (fun i => (text.data.drop (1900 * i)).take 1900)).map String.mk := by
      simp [sliceChunks, pySlice, List.map_map, Function.comp]
    have hfit : text.data.length ≤ 1900 * numChunks text := by
      have : text.length = text.data.length := rfl
      simp only [numChunks, this]
      omega
    rw [hmk, concatStrs_map_mk, flatten_slices (numChunks text) text.data hfit]
  · obtain ⟨m, hm⟩ : ∃ m, numChunks text = m + 1 :=
      ⟨numChunks text - 1, by simp only [numChunks]; omega⟩
    refine ⟨(List.range m).map (fun i => pySlice text (1900 * (i + 1)) 1900), ?_, ?_⟩
    · simp [sliceChunks, hm, List.range_succ_eq_map, List.map_map, Function.comp,
            Nat.succ_eq_add_one]
    · simp [sendPaginated, hm, List.range_succ_eq_map, List.map_map, Function.comp,
            Nat.succ_eq_add_one]
  · intro h5000
    rw [hcount, h5000]

/-- Witness for C4 at a concrete text of length 5000: exactly 3 messages. -/
theorem paginate_chunks_spec_witness :
    String.mk (List.replicate 5000 'a') ≠ "" ∧
    (String.mk (List.replicate 5000 'a')).length = 5000 ∧
    (sendPaginated "Saved messages:" none (String.mk (List.replicate 5000 'a'))).length
      = (5000 + 1899) / 1900 ∧
    (sendPaginated "Saved messages:" none (String.mk (List.replicate 5000 'a'))).length = 3 := by
  have hne : String.mk (List.replicate 5000 'a') ≠ "" := by decide
  have hlen : (String.mk (List.replicate 5000 'a')).length = 5000 := by
    show (List.replicate 5000 'a').length = 5000
    exact List.length_replicate 5000 'a'
  have h := paginate_chunks_spec "Saved messages:" (String.mk (List.replicate 5000 'a')) hne
  refine ⟨hne, hlen, ?_, h.2.2.2.2.2 hlen⟩
  rw [h.1, hlen]

/-- C8: a stored array element that is not an object with an `author` key
is grouped under the author key `"unknown"`, wrapped with `timestamp`
null and `payload` equal to the original value, and its rendering shows
the JSON-serialized original value and a `Timestamp: None` line. -/
theorem legacy_entry_grouped_unknown
    (fmt : String → Option String) (g : Groups) (idx : Nat) (e : Json)
    (h : (e.isObj && e.hasKey "author") = false) :
    stepGroup g e = .ok (addToGroup g (.str "unknown") (wrapLegacy e))
    ∧ (wrapLegacy e).getD "author" = .str "unknown"
    ∧ (wrapLegacy e).getD "timestamp" = .null
    ∧ (wrapLegacy e).getD "payload" = e
    ∧ renderEntry fmt idx (wrapLegacy e)
        = .ok ["  " ++ toString idx ++ ") " ++ jsonDumps e, "       Timestamp: None"] := by
  refine ⟨?_, rfl, rfl, rfl, rfl⟩
  simp [stepGroup, h]

/-- Witness for C8 at the bare string element `"bare"`. -/
theorem legacy_entry_grouped_unknown_witness :
    ((Json.str "bare").isObj && (Json.str "bare").hasKey "author") = false ∧
    (stepGroup [] (.str "bare")
        = .ok (addToGroup [] (.str "unknown") (wrapLegacy (.str "bare")))
    ∧ (wrapLegacy (.str "bare")).getD "author" = .str "unknown"
    ∧ (wrapLegacy (.str "bare")).getD "timestamp" = .null
    ∧ (wrapLegacy (.str "bare")).getD "payload" = .str "bare"
    ∧ renderEntry (fmtNone none) 1 (wrapLegacy (.str "bare"))
        = .ok ["  1) " ++ jsonDumps (.str "bare"), "       Timestamp: None"]) :=
  ⟨rfl, legacy_entry_grouped_unknown (fmtNone none) [] 1 (.str "bare") rfl⟩

/-- C3 counterexample: the stored entry
`{"author": "a", "timestamp": "", "payload": "x"}` has a *string*
timestamp, and the empty string fails ISO-8601 parsing (the formatter is
never even consulted, because `if ts:` at line 117 is false for `""`);
yet the rendered Timestamp line is `Timestamp: None`, not the raw stored
string, which would render the line `"       Timestamp: "`. -/
theorem timestamp_empty_string_renders_none :
    renderEntry (fmtNone none) 1
        (.obj [("author", .str "a"), ("timestamp", .str ""), ("payload", .str "x")])
      = .ok ["  1) " ++ jsonDumps (.str "x"), "       Timestamp: None"]
    ∧ ("       Timestamp: None" : String) ≠ "       Timestamp: " ++ "" :=
  ⟨rfl, by decide⟩

/-- C3 (amended): for a stored entry whose `timestamp` is a *non-empty*
string on which the ISO-8601 pipeline fails, the rendering keeps the
entry (`.ok`, with its payload line unchanged) and displays the raw
stored string on the Timestamp line; a `timestamp` of null (and likewise
an empty-string timestamp) renders as `None`. -/
theorem timestamp_parse_failure_raw_fallback
    (fmt : String → Option String) (idx : Nat) (ent : Json) (ts : String)
    (hobj : ent.isObj = true) (hts : ent.getD "timestamp" = .str ts)
    (hne : ts ≠ "") (hfail : fmt ts = none) :
    renderEntry fmt idx ent
      = .ok ["  " ++ toString idx ++ ") "
               ++ jsonDumps (if ent.hasKey "payload" then ent.getD "payload" else ent),
             "       Timestamp: " ++ ts]
    ∧ (∀ (idx' : Nat) (ent' : Json), ent'.isObj = true →
        ent'.getD "timestamp" = .null →
        renderEntry fmt idx' ent'
          = .ok ["  " ++ toString idx' ++ ") "
                   ++ jsonDumps (if ent'.hasKey "payload" then ent'.getD "payload" else ent'),
                 "       Timestamp: None"]) := by
  constructor
  · simp [renderEntry, humanTs, entTs, payloadOf, hobj, hts, hfail, tsLine, Json.truthy, hne]
  · intro idx' ent' hobj' hts'
    simp [renderEntry, humanTs, entTs, payloadOf, hobj', hts', tsLine, Json.truthy]

/-- Witness for the amended C3 at the entry
`{"timestamp": "zzz", "payload": "x"}` and an always-failing formatter. -/
theorem timestamp_parse_failure_raw_fallback_witness :
    (Json.obj [("timestamp", .str "zzz"), ("payload", .str "x")]).isObj = true ∧
    (Json.obj [("timestamp", .str "zzz"), ("payload", .str "x")]).getD "timestamp"
      = .str "zzz" ∧
    ("zzz" : String) ≠ "" ∧
    fmtNone none "zzz" = none ∧
    renderEntry (fmtNone none) 1 (.obj [("timestamp", .str "zzz"), ("payload", .str "x")])
      = .ok ["  1) "
               ++ jsonDumps (if (Json.obj [("timestamp", .str "zzz"), ("payload", .str "x")]).hasKey "payload"
                             then (Json.obj [("timestamp", .str "zzz"), ("payload", .str "x")]).getD "payload"
                             else (Json.obj [("timestamp", .str "zzz"), ("payload", .str "x")])),
             "       Timestamp: " ++ "zzz"] :=
  ⟨rfl, rfl, by decide, rfl,
   (timestamp_parse_failure_raw_fallback (fmtNone none) 1
      (.obj [("timestamp", .str "zzz"), ("payload", .str "x")]) "zzz"
      rfl rfl (by decide) rfl).1⟩

/-- A `!save` message with non-empty trimmed payload appends exactly one
entry to the recovered entry list, whatever the prior file state. -/
theorem onMessage_save_append
    (fmtTs : Option String → String → Option String) (tzOk : String → Bool)
    (a t txt : String) (file : FileState) (h : pyStrip txt ≠ "") :
    onMessage fmtTs tzOk a t ("!save " ++ txt) file
      = ([savedReply],
         FileState.stored (.arr (initData file ++ [savedEntry a t (pyStrip txt)]))) := by
  have hs : pyStartsWith ("!save " ++ txt) "!save" = true := rfl
  have hd : pyDrop ("!save " ++ txt) 6 = txt := rfl
  simp [onMessage, hs, hd, h, loadBranch, not_load_of_save _ hs]

/-- Successful saves starting from a stored array append their entries in
order. -/
theorem runSaves_stored
    (fmtTs : Option String → String → Option String) (tzOk : String → Bool) :
    ∀ (saves : List (String × String × String)) (es : List Json),
      (∀ s ∈ saves, pyStrip s.2.2 ≠ "") →
      runSaves fmtTs tzOk saves (.stored (.arr es))
        = .stored (.arr (es ++ savedList saves)) := by
  intro saves
  induction saves with
  | nil => intro es _; simp [runSaves, savedList]
  | cons s rest ih =>
    intro es h
    have hs : pyStrip s.2.2 ≠ "" := h s (List.mem_cons_self s rest)
    have hstep := onMessage_save_append fmtTs tzOk s.1 s.2.1 s.2.2
      (.stored (.arr es)) hs
    simp only [runSaves, List.foldl_cons] at *
    rw [hstep]
    have := ih (es ++ [savedEntry s.1 s.2.1 (pyStrip s.2.2)])
      (fun x hx => h x (List.mem_cons_of_mem s hx))
    simp only [runSaves] at this
    rw [show initData (.stored (.arr es)) = es from rfl] at *
    rw [this]
    simp [savedList, List.append_assoc]

/-- Successful saves starting from an absent file produce exactly the
stored array of their entries (non-empty case). -/
theorem runSaves_absent
    (fmtTs : Option String → String → Option String) (tzOk : String → Bool)
    (s : String × String × String) (rest : List (String × String × String))
    (h : ∀ x ∈ s :: rest, pyStrip x.2.2 ≠ "") :
    runSaves fmtTs tzOk (s :: rest) FileState.absent
      = .stored (.arr (savedList (s :: rest))) := by
  have hs : pyStrip s.2.2 ≠ "" := h s (List.mem_cons_self s rest)
  have hstep := onMessage_save_append fmtTs tzOk s.1 s.2.1 s.2.2 FileState.absent hs
  simp only [runSaves, List.foldl_cons]
  rw [hstep]
  have := runSaves_stored fmtTs tzOk rest [savedEntry s.1 s.2.1 (pyStrip s.2.2)]
    (fun x hx => h x (List.mem_cons_of_mem s hx))
  simp only [runSaves] at this
  rw [show initData FileState.absent = [] from rfl]
  simp only [List.nil_append]
  rw [this]
  simp [savedList]

/-- `setdefault(...).append` grows the total entry count by one. -/
theorem totalEntries_addToGroup (g : Groups) (k e : Json) :
    totalEntries (addToGroup g k e) = totalEntries g + 1 := by
  induction g with
  | nil => rfl
  | cons p rest ih =>
    by_cases hk : pyKeyEq p.1 k
    · simp [addToGroup, totalEntries, hk]
      omega
    · simp only [addToGroup]
      rw [if_neg hk]
      simp only [totalEntries, List.map_cons, List.sum_cons] at *
      omega

/-- One grouping step grows the total entry count by one. -/
theorem stepGroup_totalEntries (acc : Groups) (e : Json) (g' : Groups)
    (h : stepGroup acc e = .ok g') :
    totalEntries g' = totalEntries acc + 1 := by
  unfold stepGroup at h
  split at h
  · split at h
    · dsimp only at h
      split at h
      · cases h
        exact totalEntries_addToGroup _ _ _
      · cases h
    · dsimp only at h
      split at h
      · cases h
        exact totalEntries_addToGroup _ _ _
      · cases h
  · cases h
    exact totalEntries_addToGroup _ _ _

/-- The grouping loop preserves the total entry count: every element of
the data list lands in exactly one group. -/
theorem groupFold_totalEntries :
    ∀ (data : List Json) (acc g : Groups),
      groupFold acc data = .ok g →
      totalEntries g = totalEntries acc + data.length := by
  intro data
  induction data with
  | nil =>
    intro acc g h
    simp only [groupFold] at h
    cases h
    simp
  | cons e rest ih =>
    intro acc g h
    simp only [groupFold] at h
    cases hstep : stepGroup acc e with
    | error u => rw [hstep] at h; cases h
    | ok g1 =>
      rw [hstep] at h
      have h1 := stepGroup_totalEntries acc e g1 hstep
      have h2 := ih g1 g h
      simp only [List.length_cons]
      omega

/-- Grouping step, case of an object entry with a truthy hashable
`author`. -/
theorem stepGroup_author_hashable (acc : Groups) (e : Json)
    (hc : (e.isObj && e.hasKey "author") = true)
    (ht : (e.getD "author").truthy = true)
    (hh : (e.getD "author").hashable = true) :
    stepGroup acc e = .ok (addToGroup acc (e.getD "author") e) := by
  simp [stepGroup, hc, ht, hh]

/-- Grouping step, case of an object entry with a falsy `author` value:
`entry.get('author') or 'unknown'` picks the string `"unknown"`. -/
theorem stepGroup_author_falsy (acc : Groups) (e : Json)
    (hc : (e.isObj && e.hasKey "author") = true)
    (ht : (e.getD "author").truthy = false) :
    stepGroup acc e = .ok (addToGroup acc (.str "unknown") e) := by
  simp [stepGroup, hc, ht, Json.hashable]

/-- Grouping step, legacy case (not an object with an `author` key). -/
theorem stepGroup_legacy (acc : Groups) (e : Json)
    (hc : (e.isObj && e.hasKey "author") = false) :
    stepGroup acc e = .ok (addToGroup acc (.str "unknown") (wrapLegacy e)) := by
  simp [stepGroup, hc]

/-- A well-formed entry never makes the grouping step raise. -/
theorem stepGroup_ok_of_WF (acc : Groups) (e : Json) (h : entryWF e = true) :
    ∃ g', stepGroup acc e = .ok g' := by
  by_cases hc : (e.isObj && e.hasKey "author") = true
  · by_cases ht : (e.getD "author").truthy = true
    · have hh : (e.getD "author").hashable = true := by
        simp only [entryWF, hc, if_true, Bool.and_eq_true, Bool.or_eq_true] at h
        rcases h.1 with h1 | h1
        · rw [ht] at h1
          cases h1
        · exact h1
      exact ⟨_, stepGroup_author_hashable acc e hc ht hh⟩
    · exact ⟨_, stepGroup_author_falsy acc e hc (Bool.not_eq_true _ ▸ ht)⟩
  · exact ⟨_, stepGroup_legacy acc e (Bool.not_eq_true _ ▸ hc)⟩

/-- Grouping a list of well-formed entries never raises. -/
theorem groupFold_ok_of_WF :
    ∀ (data : List Json) (acc : Groups),
      (∀ e ∈ data, entryWF e = true) → ∃ g, groupFold acc data = .ok g := by
  intro data
  induction data with
  | nil => exact fun acc _ => ⟨acc, rfl⟩
  | cons e rest ih =>
    intro acc h
    obtain ⟨g', hg'⟩ := stepGroup_ok_of_WF acc e (h e (List.mem_cons_self e rest))
    obtain ⟨g, hg⟩ := ih g' (fun x hx => h x (List.mem_cons_of_mem e hx))
    exact ⟨g, by simp only [groupFold, hg', hg]⟩

/-- Every entry of a group after `addToGroup` is either an old entry or
the added one. -/
theorem mem_addToGroup :
    ∀ (g : Groups) (k e : Json) (p : Json × List Json), p ∈ addToGroup g k e →
      ∀ x ∈ p.2, (∃ q ∈ g, x ∈ q.2) ∨ x = e := by
  intro g
  induction g with
  | nil =>
    intro k e p hp x hx
    simp only [addToGroup, List.mem_singleton] at hp
    subst hp
    simp only [List.mem_singleton] at hx
    exact Or.inr hx
  | cons q rest ih =>
    intro k e p hp x hx
    obtain ⟨k', es'⟩ := q
    by_cases hk : pyKeyEq k' k
    · simp only [addToGroup, if_pos hk, List.mem_cons] at hp
      rcases hp with rfl | hp'
      · simp only [List.mem_append, List.mem_singleton] at hx
        rcases hx with hx | rfl
        · exact Or.inl ⟨(k', es'), List.mem_cons_self _ _, hx⟩
        · exact Or.inr rfl
      · exact Or.inl ⟨p, List.mem_cons_of_mem _ hp', hx⟩
    · simp only [addToGroup, if_neg hk, List.mem_cons] at hp
      rcases hp with rfl | hp'
      · exact Or.inl ⟨(k', es'), List.mem_cons_self _ _, hx⟩
      · rcases ih k e p hp' x hx with ⟨q', hq', hxq⟩ | rfl
        · exact Or.inl ⟨q', List.mem_cons_of_mem _ hq', hxq⟩
        · exact Or.inr rfl

/-- The grouping step keeps all grouped entries renderable when the
incoming entry is well-formed (a wrapped legacy entry has a null
timestamp, so it always renders). -/
theorem stepGroup_renderOK (acc : Groups) (e : Json) (g' : Groups)
    (hacc : ∀ p ∈ acc, ∀ x ∈ p.2, entRenderOK x = true)
    (he : entryWF e = true)
    (h : stepGroup acc e = .ok g') :
    ∀ p ∈ g', ∀ x ∈ p.2, entRenderOK x = true := by
  by_cases hc : (e.isObj && e.hasKey "author") = true
  · have heOK : entRenderOK e = true := by
      simp only [entryWF, hc, if_true, Bool.and_eq_true] at he
      exact he.2
    by_cases ht : (e.getD "author").truthy = true
    · by_cases hh : (e.getD "author").hashable = true
      · rw [stepGroup_author_hashable acc e hc ht hh] at h
        cases h
        intro p hp x hx
        rcases mem_addToGroup acc _ e p hp x hx with ⟨q, hq, hxq⟩ | rfl
        · exact hacc q hq x hxq
        · exact heOK
      · rw [show stepGroup acc e = .error () by
            simp [stepGroup, hc, ht, hh]] at h
        cases h
    · rw [stepGroup_author_falsy acc e hc (Bool.not_eq_true _ ▸ ht)] at h
      cases h
      intro p hp x hx
      rcases mem_addToGroup acc _ e p hp x hx with ⟨q, hq, hxq⟩ | rfl
      · exact hacc q hq x hxq
      · exact heOK
  · rw [stepGroup_legacy acc e (Bool.not_eq_true _ ▸ hc)] at h
    cases h
    intro p hp x hx
    rcases mem_addToGroup acc _ _ p hp x hx with ⟨q, hq, hxq⟩ | rfl
    · exact hacc q hq x hxq
    · rfl

/-- Grouping well-formed entries keeps every grouped entry renderable. -/
theorem groupFold_renderOK :
    ∀ (data : List Json) (acc g : Groups),
      (∀ p ∈ acc, ∀ x ∈ p.2, entRenderOK x = true) →
      (∀ e ∈ data, entryWF e = true) →
      groupFold acc data = .ok g →
      ∀ p ∈ g, ∀ x ∈ p.2, entRenderOK x = true := by
  intro data
  induction data with
  | nil =>
    intro acc g hacc _ h
    simp only [groupFold] at h
    cases h
    exact hacc
  | cons e rest ih =>
    intro acc g hacc hWF h
    simp only [groupFold] at h
    cases hstep : stepGroup acc e with
    | error u => rw [hstep] at h; cases h
    | ok g1 =>
      rw [hstep] at h
      exact ih g1 g
        (stepGroup_renderOK acc e g1 hacc (hWF e (List.mem_cons_self e rest)) hstep)
        (fun x hx => hWF x (List.mem_cons_of_mem e hx)) h

/-- `isStr` characterization. -/
theorem isStr_iff (j : Json) : j.isStr = true ↔ ∃ s, j = .str s := by
  cases j <;> simp [Json.isStr]

/-- A renderable entry produces exactly its payload line and a timestamp
line. -/
theorem renderEntry_ok (fmt : String → Option String) (i : Nat) (ent : Json)
    (h : entRenderOK ent = true) :
    ∃ hts, renderEntry fmt i ent
      = .ok ["  " ++ toString i ++ ") " ++ jsonDumps (payloadOf ent), tsLine hts] := by
  by_cases ht : (entTs ent).truthy = true
  · have hstr : (entTs ent).isStr = true := by
      simp only [entRenderOK, ht, Bool.not_true, Bool.or_false] at h
      exact h
    obtain ⟨s, hE⟩ := (isStr_iff (entTs ent)).mp hstr
    rw [hE] at ht
    cases hf : fmt s with
    | some v => exact ⟨some v, by simp [renderEntry, humanTs, hE, ht, hf]⟩
    | none => exact ⟨some s, by simp [renderEntry, humanTs, hE, ht, hf]⟩
  · exact ⟨none, by simp [renderEntry, humanTs, ht]⟩

/-- The entry loop over renderable entries succeeds and its output
contains every entry's payload line. -/
theorem renderEntries_ok (fmt : String → Option String) :
    ∀ (l : List (Nat × Json)),
      (∀ p ∈ l, entRenderOK p.2 = true) →
      ∃ ls, renderEntries fmt l = .ok ls
        ∧ ∀ p ∈ l, ("  " ++ toString p.1 ++ ") " ++ jsonDumps (payloadOf p.2)) ∈ ls := by
  intro l
  induction l with
  | nil => exact fun _ => ⟨[], rfl, by simp⟩
  | cons p rest ih =>
    intro h
    obtain ⟨i, e⟩ := p
    obtain ⟨hts, hp⟩ := renderEntry_ok fmt i e (h (i, e) (List.mem_cons_self _ _))
    obtain ⟨rs, hrs, hmem⟩ := ih (fun x hx => h x (List.mem_cons_of_mem _ hx))
    refine ⟨["  " ++ toString i ++ ") " ++ jsonDumps (payloadOf e), tsLine hts] ++ rs,
      by simp only [renderEntries, hp, hrs], ?_⟩
    intro q hq
    rcases List.mem_cons.mp hq with rfl | hq'
    · exact List.mem_append_left _ (List.mem_cons_self _ _)
    · exact List.mem_append_right _ (hmem q hq')

/-- A group of renderable entries renders to its header line followed by
the entry lines and the blank separator; each entry's payload line occurs
in the group's lines. -/
theorem renderGroup_ok (fmt : String → Option String) (k : Json) (es : List Json)
    (h : ∀ e ∈ es, entRenderOK e = true) :
    ∃ gl, renderGroup fmt k es = .ok gl
      ∧ gl.head? = some (authorLine k es.length)
      ∧ ∀ e ∈ es, ∃ i : Nat, ("  " ++ toString i ++ ") " ++ jsonDumps (payloadOf e)) ∈ gl := by
  have hl : ∀ p ∈ List.enumFrom 1 es, entRenderOK p.2 = true := by
    intro p hp
    apply h
    rw [← List.enumFrom_map_snd 1 es]
    exact List.mem_map_of_mem Prod.snd hp
  obtain ⟨ls, hls, hmem⟩ := renderEntries_ok fmt _ hl
  refine ⟨authorLine k es.length :: (ls ++ [""]), by simp [renderGroup, hls], rfl, ?_⟩
  intro e he
  have : e ∈ (List.enumFrom 1 es).map Prod.snd := by
    rw [List.enumFrom_map_snd]
    exact he
  obtain ⟨p, hp, hpe⟩ := List.mem_map.mp this
  subst hpe
  exact ⟨p.1, List.mem_cons_of_mem _ (List.mem_append_left _ (hmem p hp))⟩

/-- The author loop over groups of renderable entries succeeds. -/
theorem renderGroups_ok (fmt : String → Option String) :
    ∀ (g : Groups),
      (∀ p ∈ g, ∀ x ∈ p.2, entRenderOK x = true) →
      ∃ ls, renderGroups fmt g = .ok ls := by
  intro g
  induction g with
  | nil => exact fun _ => ⟨[], rfl⟩
  | cons q rest ih =>
    intro h
    obtain ⟨k, es⟩ := q
    obtain ⟨gl, hgl, -, -⟩ := renderGroup_ok fmt k es
      (fun e he => h (k, es) (List.mem_cons_self _ _) e he)
    obtain ⟨rs, hrs⟩ := ih (fun p hp x hx => h p (List.mem_cons_of_mem _ hp) x hx)
    exact ⟨gl ++ rs, by simp only [renderGroups, hgl, hrs]⟩

/-- Each group's rendered lines occur contiguously in the full parts
list. -/
theorem renderGroups_infix (fmt : String → Option String) :
    ∀ (g : Groups) (ls : List String),
      renderGroups fmt g = .ok ls → ∀ p ∈ g,
      ∃ gl, renderGroup fmt p.1 p.2 = .ok gl ∧ gl <:+: ls := by
  intro g
  induction g with
  | nil => intro ls _ p hp; simp at hp
  | cons q rest ih =>
    intro ls h p hp
    obtain ⟨k, es⟩ := q
    simp only [renderGroups] at h
    cases hgl : renderGroup fmt k es with
    | error u => rw [hgl] at h; cases h
    | ok gl =>
      rw [hgl] at h
      cases hrs : renderGroups fmt rest with
      | error u => rw [hrs] at h; cases h
      | ok rs =>
        rw [hrs] at h
        cases h
        rcases List.mem_cons.mp hp with rfl | hp'
        · exact ⟨gl, hgl, [], rs, by simp⟩
        · obtain ⟨gl', hgl', hinf⟩ := ih rs hrs p hp'
          exact ⟨gl', hgl', hinf.trans ⟨gl, [], by simp⟩⟩

/-- Rendering a list of well-formed entries succeeds, through the same
grouping the handler performs. -/
theorem renderParts_ok (fmt : String → Option String) (data : List Json)
    (h : ∀ e ∈ data, entryWF e = true) :
    ∃ g parts, groupFold [] data = .ok g ∧ renderGroups fmt g = .ok parts
      ∧ renderParts fmt data = .ok parts := by
  obtain ⟨g, hg⟩ := groupFold_ok_of_WF data [] h
  have hOK := groupFold_renderOK data [] g (by simp) h hg
  obtain ⟨parts, hp⟩ := renderGroups_ok fmt g hOK
  exact ⟨g, parts, hg, hp, by simp only [renderParts, hg, hp]⟩

/-- Entries built by the `!save` branch are always well-formed: their
author key holds a string (hashable) and their timestamp is a string. -/
theorem entryWF_saved (a t p : String) : entryWF (savedEntry a t p) = true := by
  simp [entryWF, savedEntry, Json.isObj, Json.hasKey, Json.getD, entRenderOK,
        entTs, Json.isStr, Json.hashable]

/-- A plain `!load` (no timezone argument) on a stored array renders the
grouped parts and paginates them under the `Saved messages:` header. -/
theorem onMessage_load_plain
    (fmtTs : Option String → String → Option String) (tzOk : String → Bool)
    (a t : String) (es : List Json) (parts : List String)
    (h : renderParts (fmtTs none) es = .ok parts) :
    onMessage fmtTs tzOk a t "!load" (.stored (.arr es))
      = (sendPaginated "Saved messages:" none (friendlyText parts),
         .stored (.arr es)) := by
  have hns : pyStartsWith "!load" "!save" = false := rfl
  have hl : pyStartsWith "!load" "!load" = true := rfl
  have htz : pyStrip (pyDrop "!load" 5) = "" := rfl
  simp [onMessage, hns, loadBranch, hl, htz, normalizeData, h]

/-- C1: starting from an absent storage file, `N` successful `!save`
commands leave the file holding exactly their `N` entries; the grouping
the subsequent plain `!load` performs succeeds with total entry count
across all author groups exactly `N`, and the load paginates the
rendering; for `N = 0` (file still absent) the `!load` reply is the
no-data message. -/
theorem save_roundtrip_count
    (fmtTs : Option String → String → Option String) (tzOk : String → Bool)
    (author ts : String) (saves : List (String × String × String))
    (hsucc : ∀ s ∈ saves, pyStrip s.2.2 ≠ "") :
    (saves = [] →
       runSaves fmtTs tzOk saves FileState.absent = FileState.absent
       ∧ onMessage fmtTs tzOk author ts "!load" FileState.absent
           = ([noDataReply], FileState.absent))
    ∧ (saves ≠ [] →
       ∃ g parts,
         runSaves fmtTs tzOk saves FileState.absent
           = FileState.stored (.arr (savedList saves))
         ∧ (savedList saves).length = saves.length
         ∧ groupFold [] (savedList saves) = .ok g
         ∧ totalEntries g = saves.length
         ∧ renderParts (fmtTs none) (savedList saves) = .ok parts
         ∧ onMessage fmtTs tzOk author ts "!load"
             (FileState.stored (.arr (savedList saves)))
             = (sendPaginated "Saved messages:" none (friendlyText parts),
                FileState.stored (.arr (savedList saves)))) := by
  constructor
  · intro h
    subst h
    exact ⟨rfl, rfl⟩
  · intro hne
    obtain ⟨s, rest, rfl⟩ := List.exists_cons_of_ne_nil hne
    have hWF : ∀ e ∈ savedList (s :: rest), entryWF e = true := by
      intro e he
      simp only [savedList, List.mem_map] at he
      obtain ⟨x, -, rfl⟩ := he
      exact entryWF_saved _ _ _
    obtain ⟨g, parts, hg, hrg, hrp⟩ :=
      renderParts_ok (fmtTs none) (savedList (s :: rest)) hWF
    refine ⟨g, parts, runSaves_absent fmtTs tzOk s rest hsucc,
      by simp [savedList], hg, ?_,
      hrp, onMessage_load_plain fmtTs tzOk author ts _ parts hrp⟩
    have hcount := groupFold_totalEntries (savedList (s :: rest)) [] g hg
    rw [hcount]
    simp [totalEntries, savedList]

/-- Witness for C1 at two concrete saves. -/
theorem save_roundtrip_count_witness :
    (∀ s ∈ [("alice", "t1", "hi"), ("bob", "t2", "yo")], pyStrip s.2.2 ≠ "") ∧
    (([] : List (String × String × String)) = [] →
       runSaves fmtNone tzNone [] FileState.absent = FileState.absent
       ∧ onMessage fmtNone tzNone "alice" "t0" "!load" FileState.absent
           = ([noDataReply], FileState.absent)) ∧
    (([("alice", "t1", "hi"), ("bob", "t2", "yo")] : List (String × String × String)) ≠ [] →
       ∃ g parts,
         runSaves fmtNone tzNone [("alice", "t1", "hi"), ("bob", "t2", "yo")] FileState.absent
           = FileState.stored (.arr (savedList [("alice", "t1", "hi"), ("bob", "t2", "yo")]))
         ∧ (savedList [("alice", "t1", "hi"), ("bob", "t2", "yo")]).length = 2
         ∧ groupFold [] (savedList [("alice", "t1", "hi"), ("bob", "t2", "yo")]) = .ok g
         ∧ totalEntries g = 2
         ∧ renderParts (fmtNone none) (savedList [("alice", "t1", "hi"), ("bob", "t2", "yo")]) = .ok parts
         ∧ onMessage fmtNone tzNone "alice" "t0" "!load"
             (FileState.stored (.arr (savedList [("alice", "t1", "hi"), ("bob", "t2", "yo")])))
             = (sendPaginated "Saved messages:" none (friendlyText parts),
                FileState.stored (.arr (savedList [("alice", "t1", "hi"), ("bob", "t2", "yo")])))) := by
  have hs : ∀ s ∈ [("alice", "t1", "hi"), ("bob", "t2", "yo")],
      pyStrip (s.2.2 : String) ≠ "" := by decide
  refine ⟨hs, ?_, ?_⟩
  · exact (save_roundtrip_count fmtNone tzNone "alice" "t0" [] (by decide)).1
  · exact (save_roundtrip_count fmtNone tzNone "alice" "t0"
      [("alice", "t1", "hi"), ("bob", "t2", "yo")] hs).2

/-- Only the equal string is `==`-equal to a string dict key. -/
theorem pyKeyEq_str_iff (a : Json) (s : String) :
    pyKeyEq a (.str s) = true ↔ a = .str s := by
  cases a <;> simp [pyKeyEq, Json.keyNum]

/-- `==` on string keys is reflexive. -/
theorem pyKeyEq_str_refl (s : String) : pyKeyEq (.str s) (.str s) = true := by
  simp [pyKeyEq]

/-- After adding an entry under a string key, lookup of that key finds a
group keyed by that very string that contains the entry. -/
theorem findGroup_addToGroup_str :
    ∀ (g : Groups) (s : String) (e : Json),
      ∃ es, findGroup (addToGroup g (.str s) e) (.str s) = some (.str s, es)
        ∧ e ∈ es := by
  intro g s e
  induction g with
  | nil =>
    refine ⟨[e], ?_, List.mem_singleton_self e⟩
    simp [addToGroup, findGroup, List.find?_cons_of_pos, pyKeyEq_str_refl]
  | cons q rest ih =>
    by_cases hk : pyKeyEq q.1 (.str s) = true
    · have hq : q.1 = .str s := (pyKeyEq_str_iff _ _).mp hk
      refine ⟨q.2 ++ [e], ?_, List.mem_append_right _ (List.mem_singleton_self e)⟩
      obtain ⟨k', es'⟩ := q
      simp only at hq
      subst hq
      simp [addToGroup, findGroup, pyKeyEq_str_refl, List.find?_cons_of_pos]
    · obtain ⟨es, hfind, hmem⟩ := ih
      refine ⟨es, ?_, hmem⟩
      obtain ⟨k', es'⟩ := q
      simp only [addToGroup, if_neg hk]
      simp only [findGroup] at hfind ⊢
      rw [List.find?_cons_of_neg _ (by simpa using hk)]
      exact hfind

/-- The grouping loop over an appended list runs the two halves in
sequence. -/
theorem groupFold_append :
    ∀ (d1 d2 : List Json) (acc : Groups),
      groupFold acc (d1 ++ d2)
        = match groupFold acc d1 with
          | .error u => .error u
          | .ok g => groupFold g d2 := by
  intro d1
  induction d1 with
  | nil => intro d2 acc; simp [groupFold]
  | cons e rest ih =>
    intro d2 acc
    simp only [List.cons_append, groupFold]
    cases stepGroup acc e with
    | error u => rfl
    | ok g' => exact ih d2 g'

/-- Every element of a joined parts list occurs in the joined text. -/
theorem mem_pyJoin_infix (sep : String) :
    ∀ (l : List String) (x : String), x ∈ l → x.data <:+: (pyJoin sep l).data := by
  intro l
  induction l with
  | nil => intro x hx; simp at hx
  | cons a tail ih =>
    intro x hx
    cases tail with
    | nil =>
      simp only [List.mem_singleton] at hx
      subst hx
      exact List.infix_rfl
    | cons b bs =>
      rcases List.mem_cons.mp hx with rfl | hx'
      · refine ⟨[], (sep.data ++ (pyJoin sep (b :: bs)).data), ?_⟩
        simp [pyJoin, String.data_append]
      · have htail := ih x hx'
        refine htail.trans ⟨a.data ++ sep.data, [], ?_⟩
        simp [pyJoin, String.data_append]

/-- C2: saving a non-empty trimmed text `T` and then immediately loading
(no timezone argument) renders a parts list in which the group headed by
the sender's author name contains the payload line with the JSON-quoted
form of `T`; the load paginates exactly that text, and the quoted `T`
occurs in it.  The prior file state is arbitrary as long as its entries
are well-formed (absent and corrupt states have no entries). -/
theorem save_then_load_payload_in_author_group
    (fmtTs : Option String → String → Option String) (tzOk : String → Bool)
    (author ts la lt T : String) (file : FileState)
    (hauthor : author ≠ "")
    (hT : pyStrip T = T) (hTne : T ≠ "")
    (hWF : ∀ e ∈ initData file, entryWF e = true) :
    ∃ g es gl parts,
      onMessage fmtTs tzOk author ts ("!save " ++ T) file
        = ([savedReply],
           FileState.stored (.arr (initData file ++ [savedEntry author ts T])))
      ∧ groupFold [] (initData file ++ [savedEntry author ts T]) = .ok g
      ∧ findGroup g (.str author) = some (.str author, es)
      ∧ savedEntry author ts T ∈ es
      ∧ renderGroup (fmtTs none) (.str author) es = .ok gl
      ∧ gl.head? = some (authorLine (.str author) es.length)
      ∧ (∃ i : Nat, ("  " ++ toString i ++ ") " ++ jsonDumps (.str T)) ∈ gl)
      ∧ gl <:+: parts
      ∧ renderParts (fmtTs none) (initData file ++ [savedEntry author ts T]) = .ok parts
      ∧ onMessage fmtTs tzOk la lt "!load"
          (FileState.stored (.arr (initData file ++ [savedEntry author ts T])))
          = (sendPaginated "Saved messages:" none (friendlyText parts),
             FileState.stored (.arr (initData file ++ [savedEntry author ts T])))
      ∧ (jsonDumps (.str T)).data <:+: (friendlyText parts).data := by
  have hsave : onMessage fmtTs tzOk author ts ("!save " ++ T) file
      = ([savedReply],
         FileState.stored (.arr (initData file ++ [savedEntry author ts T]))) := by
    have h := onMessage_save_append fmtTs tzOk author ts T file (by rw [hT]; exact hTne)
    rw [hT] at h
    exact h
  have hWF' : ∀ x ∈ initData file ++ [savedEntry author ts T], entryWF x = true := by
    intro x hx
    rcases List.mem_append.mp hx with hx | hx
    · exact hWF x hx
    · rw [List.mem_singleton.mp hx]
      exact entryWF_saved author ts T
  obtain ⟨g, parts, hg, hrg, hrp⟩ := renderParts_ok (fmtTs none) _ hWF'
  obtain ⟨g0, hg0⟩ := groupFold_ok_of_WF (initData file) [] hWF
  have ht : ((savedEntry author ts T).getD "author").truthy = true := by
    show (Json.str author).truthy = true
    simp [Json.truthy]
    exact hauthor
  have hstep : stepGroup g0 (savedEntry author ts T)
      = .ok (addToGroup g0 (.str author) (savedEntry author ts T)) :=
    stepGroup_author_hashable g0 (savedEntry author ts T) rfl ht rfl
  have hgeq : g = addToGroup g0 (.str author) (savedEntry author ts T) := by
    have happ := groupFold_append (initData file) [savedEntry author ts T] []
    rw [hg0] at happ
    have hg2 := hg
    rw [happ] at hg2
    simp only [groupFold, hstep] at hg2
    exact (Except.ok.injEq _ _).mp hg2.symm
  obtain ⟨es, hfind, hmem⟩ := findGroup_addToGroup_str g0 author (savedEntry author ts T)
  rw [← hgeq] at hfind
  have hpair : (Json.str author, es) ∈ g := by
    have := List.mem_of_find?_eq_some hfind
    exact this
  obtain ⟨gl, hgl, hinf⟩ := renderGroups_infix (fmtTs none) g parts hrg (.str author, es) hpair
  have hren : ∀ x ∈ es, entRenderOK x = true := by
    have hall := groupFold_renderOK (initData file ++ [savedEntry author ts T]) [] g
      (by simp) hWF' hg
    exact fun x hx => hall (.str author, es) hpair x hx
  obtain ⟨gl', hgl', hhead, hpay⟩ := renderGroup_ok (fmtTs none) (.str author) es hren
  rw [hgl] at hgl'
  cases hgl'
  obtain ⟨i, hiline⟩ := hpay (savedEntry author ts T) hmem
  have hpayl : payloadOf (savedEntry author ts T) = .str T := rfl
  rw [hpayl] at hiline
  have hload := onMessage_load_plain fmtTs tzOk la lt
    (initData file ++ [savedEntry author ts T]) parts hrp
  have hline_in_parts : ("  " ++ toString i ++ ") " ++ jsonDumps (.str T)) ∈ parts :=
    hinf.subset hiline
  have hjoin : ("  " ++ toString i ++ ") " ++ jsonDumps (.str T)).data
      <:+: (friendlyText parts).data :=
    mem_pyJoin_infix "\n" parts _ hline_in_parts
  have hsub : (jsonDumps (.str T)).data
      <:+: ("  " ++ toString i ++ ") " ++ jsonDumps (.str T)).data := by
    refine ⟨("  " ++ toString i ++ ") ").data, [], ?_⟩
    simp [String.data_append]
  exact ⟨g, es, gl, parts, hsave, hg, hfind, hmem, hgl, hhead, ⟨i, hiline⟩, hinf,
    hrp, hload, hsub.trans hjoin⟩

/-- Witness for C2: author `"alice"` saves `"hi"` into an absent store and
loads it back. -/
theorem save_then_load_payload_in_author_group_witness :
    ("alice" : String) ≠ "" ∧ pyStrip "hi" = "hi" ∧ ("hi" : String) ≠ "" ∧
    (∀ e ∈ initData FileState.absent, entryWF e = true) ∧
    (∃ g es gl parts,
      onMessage fmtNone tzNone "alice" "t1" ("!save " ++ "hi") FileState.absent
        = ([savedReply],
           FileState.stored
             (.arr (initData FileState.absent ++ [savedEntry "alice" "t1" "hi"])))
      ∧ groupFold [] (initData FileState.absent ++ [savedEntry "alice" "t1" "hi"]) = .ok g
      ∧ findGroup g (.str "alice") = some (.str "alice", es)
      ∧ savedEntry "alice" "t1" "hi" ∈ es
      ∧ renderGroup (fmtNone none) (.str "alice") es = .ok gl
      ∧ gl.head? = some (authorLine (.str "alice") es.length)
      ∧ (∃ i : Nat, ("  " ++ toString i ++ ") " ++ jsonDumps (.str "hi")) ∈ gl)
      ∧ gl <:+: parts
      ∧ renderParts (fmtNone none)
          (initData FileState.absent ++ [savedEntry "alice" "t1" "hi"]) = .ok parts
      ∧ onMessage fmtNone tzNone "x" "y" "!load"
          (FileState.stored
            (.arr (initData FileState.absent ++ [savedEntry "alice" "t1" "hi"])))
          = (sendPaginated "Saved messages:" none (friendlyText parts),
             FileState.stored
               (.arr (initData FileState.absent ++ [savedEntry "alice" "t1" "hi"])))
      ∧ (jsonDumps (.str "hi")).data <:+: (friendlyText parts).data) :=
  ⟨by decide, rfl, by decide, by simp [initData],
   save_then_load_payload_in_author_group fmtNone tzNone "alice" "t1" "x" "y" "hi"
     FileState.absent (by decide) rfl (by decide) (by simp [initData])⟩
